import Mathlib

/-!
Verification development for the ACE PR-extraction pipeline.

The Python sources are shallowly embedded as Lean definitions:

* `resolve_pairs.py` — JSON cache validation (`load_cache_if_valid`), the
  decision of the resolver to use the cache or fetch remotely
  (`resolve_main`), and the final pair-set computation
  (`dropImplausiblePairs`, `promoteSelfPairs`, `finalPairs`).
* `main.py` — the per-pair extract loop of the `extract` and `all`
  sub-commands (`processPair`, `extractLoop`, `extractCmd`, `allCmd`),
  and the build loop of the `build` sub-command (`buildStep`, `buildCmd`).
* `build_dataset.py` — `get_extract_entry`, `build_one_row`.
* `features/extract.py` — branch creation (`gitBranchCreate`,
  `createSnapshotBranches`) and base-commit selection (`computeBase`).
* `agent_change.py` — the two agent invocations (`agent_change_main`).

External collaborators (git, the GitHub CLI, the Cursor agent) are
modelled by their documented contracts: commit graphs are functions from
a commit to its parent list, branch stores are association lists, and
subprocess results are oracle functions supplied as parameters.
-/

/-- A JSON value, as produced by Python json.load. JSON null loads as
Python None; dictionaries keep insertion order as association lists. -/
inductive Json where
  | null : Json
  | bool : Bool → Json
  | num : Int → Json
  | str : String → Json
  | arr : List Json → Json
  | obj : List (String × Json) → Json

/-- First field with the given key in a JSON object field list. -/
def Json.lookupField : List (String × Json) → String → Option Json
  | [], _ => none
  | (k, v) :: rest, key => if k = key then some v else Json.lookupField rest key

/-- Python dict.get on a JSON value. A stored JSON null behaves like an
absent key (both load as Python None). Calling .get on a non-dict value
raises AttributeError, modelled as an error result. -/
def Json.pyDictGet : Json → String → Except String (Option Json)
  | .obj fields, key =>
      match Json.lookupField fields key with
      | some .null => .ok none
      | some v => .ok (some v)
      | none => .ok none
  | _, _ => .error "AttributeError"

/-- Python truthiness of a JSON value. -/
def Json.truthy : Json → Bool
  | .null => false
  | .bool b => b
  | .num n => n != 0
  | .str s => !s.isEmpty
  | .arr xs => !xs.isEmpty
  | .obj fs => !fs.isEmpty

/-- Embeds load_cache_if_valid of resolve_pairs.py. The input is the
parsed content of the cache file (none when the file is missing or
fails to parse, both of which the source maps to None). The result is
none when the cache is rejected, or the (refs, pairs_list) tuple. -/
def load_cache_if_valid (file : Option Json) : Except String (Option (Json × List Json)) :=
  match file with
  | none => .ok none
  | some data =>
    match data.pyDictGet "pairs" with
    | .error e => .error e
    | .ok pairsVal =>
      match pairsVal with
      | some (.arr pairs_list) =>
        if pairs_list.isEmpty then .ok none
        else
          match data.pyDictGet "refs" with
          | .error e => .error e
          | .ok none => .ok none
          | .ok (some refs) =>
            if refs.truthy = false then .ok none
            else
              match refs.pyDictGet "issue_ids" with
              | .error e => .error e
              | .ok (some (.arr l)) =>
                  let _ := l
                  .ok (some (refs, pairs_list))
              | .ok _ => .ok none
      | _ => .ok none

/-- Outcome of running resolve_pairs.py main up to the point where it
either returns early from the cache or falls through to the three
remote evidence sources. -/
inductive ResolveOutcome where
  | usedCache : List Json → ResolveOutcome
  | fetchedRemote : ResolveOutcome
  | crashed : String → ResolveOutcome

/-- Embeds the cache decision of resolve_pairs.py main (the code before
Source 1). With no refresh flag and a validating cache the function
returns early, performing no remote calls; otherwise it proceeds to the
remote evidence sources. -/
def resolve_main (refresh : Bool) (cache_file : Option Json) : ResolveOutcome :=
  if refresh = false then
    match load_cache_if_valid cache_file with
    | .error e => .crashed e
    | .ok (some (_refs, pairs_list)) => .usedCache pairs_list
    | .ok none => .fetchedRemote
  else .fetchedRemote

/-- Embeds the implausible-pair filter of resolve_pairs.py main:
drop (i, p) when i differs from p, i is below 50 and p exceeds i by
more than 500. -/
def dropImplausiblePairs (all_pairs : Finset (Int × Int)) : Finset (Int × Int) :=
  all_pairs.filter (fun q => ¬(q.1 ≠ q.2 ∧ q.1 < 50 ∧ q.2 - q.1 > 500))

/-- Embeds the promotion step of resolve_pairs.py main: keep every real
pair, and keep a self-pair (p, p) only when no real pair for p exists. -/
def promoteSelfPairs (s : Finset (Int × Int)) : Finset (Int × Int) :=
  let real := s.filter (fun q => q.1 ≠ q.2)
  let prs_with_real := real.image Prod.snd
  real ∪ s.filter (fun q => q.1 = q.2 ∧ q.2 ∉ prs_with_real)

/-- The final pair set of the resolver, from the merged evidence pairs. -/
def finalPairs (all_pairs : Finset (Int × Int)) : Finset (Int × Int) :=
  promoteSelfPairs (dropImplausiblePairs all_pairs)

/-- The cache file of the C5 scenario: pairs present, refs absent. -/
def c5CacheJson : Json :=
  .obj [("pairs", .arr [.obj [("issue_id", .num 7), ("pr_id", .num 9)]])]

/-- One parsed element of the pairs list fed to the extract loop of
main.py. A field is none when the key is absent or its value is null
(both read back as Python None by .get). Elements that are not
dictionaries or whose identifiers are not integers are outside the
model. -/
structure PairRec where
  issue_id : Option Int
  pr_id : Option Int

/-- One extract cache entry (a dictionary in extract_cache.json),
restricted to the keys the pipeline reads. -/
structure CacheEntry where
  issue_id : Option Int
  pr_id : Option Int
  base_hash : Option String
  merge_hash : Option String
  human_hash : Option String
  branches : Option Json

/-- Result of one run_extract subprocess call in main.py: either the
parsed EXTRACT_JSON payload (its base_hash, merge_hash and branches
fields, each possibly absent) or an error string. -/
inductive ExtractOutcome where
  | success : Option String → Option String → Option Json → ExtractOutcome
  | failure : String → ExtractOutcome

/-- A recorded per-pair failure: the raw issue and pr identifiers plus
the reason string, as appended to the failed list in main.py. -/
abbrev FailRec : Type := Option Int × Option Int × String

/-- State threaded through the extract loop of main.py: the entries
accumulated so far, the failures, the durable on-disk content of
extract_cache.json, and the run_extract invocations performed. -/
structure ExtractRunState where
  extract_entries : List CacheEntry
  failed : List FailRec
  durable : Option (List CacheEntry)
  calls : List (Int × Int)

/-- Embeds one iteration of the extract loop in main.py (both the
extract and the all sub-commands run this same body): pairs with a
missing identifier are recorded as failures, otherwise run_extract is
invoked and its result either appended to extract_entries or recorded
as a failure. The loop body never touches the durable cache file. -/
def processPair (run_extract : Int → Int → ExtractOutcome)
    (st : ExtractRunState) (p : PairRec) : ExtractRunState :=
  match p.issue_id, p.pr_id with
  | some i, some pr =>
    match run_extract i pr with
    | .failure err =>
      { st with failed := st.failed ++ [(some i, some pr, err)],
                calls := st.calls ++ [(i, pr)] }
    | .success bh mh br =>
      { st with extract_entries :=
          st.extract_entries ++ [⟨some i, some pr, bh, mh, none, br⟩],
                calls := st.calls ++ [(i, pr)] }
  | i?, pr? => { st with failed := st.failed ++ [(i?, pr?, "missing issue_id or pr_id")] }

/-- The extract loop over a pairs list (the list is already limited by
the --limit argument when one was given). -/
def extractLoop (run_extract : Int → Int → ExtractOutcome)
    (pairs : List PairRec) (st : ExtractRunState) : ExtractRunState :=
  pairs.foldl (processPair run_extract) st

/-- Fresh in-memory state at the start of an extract run; disk is the
current content of extract_cache.json (none when absent). -/
def initialExtractState (disk : Option (List CacheEntry)) : ExtractRunState :=
  ⟨[], [], disk, []⟩

/-- Embeds the extract sub-command of main.py: run the loop over all
pairs, then call save_extract_cache once with the entries of this run,
and exit 1 exactly when the failed list is non-empty. -/
def extractCmd (run_extract : Int → Int → ExtractOutcome)
    (pairs : List PairRec) (disk : Option (List CacheEntry)) :
    ExtractRunState × Nat :=
  let st := extractLoop run_extract pairs (initialExtractState disk)
  let st2 := { st with durable := some st.extract_entries }
  (st2, if st.failed.isEmpty then 0 else 1)

/-- The identifier pairs on which the extract loop invokes run_extract:
every pair whose issue_id and pr_id are both present. -/
def wellFormedIds (pairs : List PairRec) : List (Int × Int) :=
  pairs.filterMap (fun p =>
    match p.issue_id, p.pr_id with
    | some i, some pr => some (i, pr)
    | _, _ => none)

/-- Embeds get_extract_entry of build_dataset.py: first entry matching
both identifiers, as a (base_hash, human_hash, merge_hash) triple; none
when the cache is absent or empty or no entry matches. -/
def get_extract_entry (cache : Option (List CacheEntry)) (issue_id pr_id : Int) :
    Option (Option String × Option String × Option String) :=
  match cache with
  | none => none
  | some entries =>
    if entries.isEmpty then none
    else
      match entries.find? (fun e => e.issue_id == some issue_id && e.pr_id == some pr_id) with
      | some e => some (e.base_hash, e.human_hash, e.merge_hash)
      | none => none

/-- Python truthiness of an optional string (None and the empty string
are falsy). -/
def truthyStr : Option String → Bool
  | none => false
  | some s => !s.isEmpty

/-- Python a or b on optional strings: b when a is falsy. -/
def pyOrStr (a b : Option String) : Option String :=
  if truthyStr a then a else b

/-- The project field written into every dataset row
(GITHUB_OWNER/GITHUB_REPO from params.py). -/
def projectField : String := "pallets/flask"

/-- One dataset.jsonl row, with the fields build_one_row constructs. -/
structure DatasetRow where
  project : String
  issue_text : String
  issue_id : Option Int
  pr_text : String
  pr_id : Option Int
  base_hash : String
  human_hash : String
  pr_diff : String
  cursor_diff : String
  cursor_creative_diff : String
deriving DecidableEq

/-- Environment of the build stage: whether the working clone exists,
the output of git diff between two revision strings (the git_diff
wrapper already degrades a failed diff to the empty string), and the
fetched issue and pr texts (fetch failures degrade to the empty
string). -/
structure BuildEnv where
  repoExists : Bool
  diff : String → String → String
  issueText : Option Int → String
  prText : Option Int → String

/-- Embeds build_one_row of build_dataset.py: fails when the working
clone is missing or a hash is falsy, otherwise assembles the full row,
diffing the base hash against the human, cursor and cursor-creative
branch names derived from the first 8 characters of the base hash. -/
def build_one_row (env : BuildEnv) (issue_id pr_id : Option Int)
    (base_hash human_hash : Option String) : Except String DatasetRow :=
  if env.repoExists = false then .error "repo not found"
  else
    match base_hash, human_hash with
    | some b, some hh =>
      if b.isEmpty || hh.isEmpty then .error "missing base_hash or human_hash"
      else
        let h := b.take 8
        .ok { project := projectField
              issue_text := env.issueText issue_id
              issue_id := issue_id
              pr_text := env.prText pr_id
              pr_id := pr_id
              base_hash := b
              human_hash := hh
              pr_diff := env.diff b (h ++ "-human")
              cursor_diff := env.diff b (h ++ "-cursor")
              cursor_creative_diff := env.diff b (h ++ "-cursor-creative") }
    | _, _ => .error "missing base_hash or human_hash"

/-- The incompleteness test of the build sub-command in main.py: a
missing identifier, a falsy base hash, or a falsy merge hash (with
human_hash as fallback for merge_hash). -/
def incompleteEntry (e : CacheEntry) : Bool :=
  e.issue_id.isNone || e.pr_id.isNone ||
    !truthyStr e.base_hash || !truthyStr (pyOrStr e.merge_hash e.human_hash)

/-- Embeds one iteration of the build loop of the build sub-command in
main.py: incomplete entries are skipped and recorded, otherwise
build_one_row either yields a complete row (written to the output as a
whole line) or a recorded failure. -/
def buildStep (env : BuildEnv) (acc : List DatasetRow × List FailRec)
    (entry : CacheEntry) : List DatasetRow × List FailRec :=
  if incompleteEntry entry then
    (acc.1, acc.2 ++ [(entry.issue_id, entry.pr_id, "incomplete cache entry")])
  else
    match build_one_row env entry.issue_id entry.pr_id entry.base_hash
        (pyOrStr entry.merge_hash entry.human_hash) with
    | .error e => (acc.1, acc.2 ++ [(entry.issue_id, entry.pr_id, e)])
    | .ok row => (acc.1 ++ [row], acc.2)

/-- Embeds the build sub-command of main.py: exit 1 when the extract
cache is missing or empty, otherwise run the loop and exit 1 exactly
when at least one entry failed. Returns (rows written, failures, exit
status). -/
def buildCmd (env : BuildEnv) (extract_cache : Option (List CacheEntry)) :
    List DatasetRow × List FailRec × Nat :=
  match extract_cache with
  | none => ([], [], 1)
  | some entries =>
    if entries.isEmpty then ([], [], 1)
    else
      let res := entries.foldl (buildStep env) ([], [])
      (res.1, res.2, if res.2.isEmpty then 0 else 1)

/-- Embeds one iteration of the build phase inside the all sub-command
of main.py, which checks only the two hashes (the entries of this run
always carry both identifiers) and uses merge_hash with no human_hash
fallback. -/
def allBuildStep (env : BuildEnv) (acc : List DatasetRow × List FailRec)
    (entry : CacheEntry) : List DatasetRow × List FailRec :=
  if !truthyStr entry.base_hash || !truthyStr entry.merge_hash then
    (acc.1, acc.2 ++ [(entry.issue_id, entry.pr_id, "missing hashes")])
  else
    match build_one_row env entry.issue_id entry.pr_id entry.base_hash entry.merge_hash with
    | .error e => (acc.1, acc.2 ++ [(entry.issue_id, entry.pr_id, e)])
    | .ok row => (acc.1 ++ [row], acc.2)

/-- Embeds the all sub-command of main.py after pair resolution: the
extract loop, one save of the extract cache, the build phase over this
run's entries, and the final exit status, which is always 0 (per-pair
failures of both phases are only printed in the summary). -/
def allCmd (run_extract : Int → Int → ExtractOutcome) (env : BuildEnv)
    (pairs : List PairRec) (disk : Option (List CacheEntry)) :
    ExtractRunState × (List DatasetRow × List FailRec) × Nat :=
  let st := extractLoop run_extract pairs (initialExtractState disk)
  let st2 := { st with durable := some st.extract_entries }
  let built := st.extract_entries.foldl (allBuildStep env) ([], [])
  (st2, built, 0)

/-- Embeds a git branch name sha invocation (without -f, as in
features/extract.py): refuses when a ref of that name already exists,
even at the same commit, else records the new ref. The store is the
list of (ref name, commit id) pairs of the working clone. -/
def gitBranchCreate (store : List (String × String)) (name sha : String) :
    Except String (List (String × String)) :=
  match store.lookup name with
  | some _ => .error ("fatal: a branch named " ++ name ++ " already exists")
  | none => .ok (store ++ [(name, sha)])

/-- Embeds the branch-creation loop of features/extract.py main: create
the base and human branches in order; the run helper exits on the first
git failure, modelled as the error result. -/
def createSnapshotBranches (store : List (String × String))
    (base_sha merge_sha : String) : Except String (List (String × String)) :=
  let h := base_sha.take 8
  match gitBranchCreate store (h ++ "-base") base_sha with
  | .error e => .error e
  | .ok store1 =>
    match gitBranchCreate store1 (h ++ "-human") merge_sha with
    | .error e => .error e
    | .ok store2 => .ok store2

/-- Ancestor enumeration in a commit graph given as a parent function:
all commits reachable from b through at most fuel parent steps,
b itself included. -/
def ancList (g : Nat → List Nat) : Nat → Nat → List Nat
  | 0, b => [b]
  | fuel + 1, b => b :: (g b).flatMap (fun p => ancList g fuel p)

/-- Common ancestors of two commits (fuel bounded by the commit
numbers, which suffices for parent-decreasing graphs). -/
def commonAnc (g : Nat → List Nat) (p1 p2 : Nat) : List Nat :=
  (ancList g p1 p1).filter (fun c => decide (c ∈ ancList g p2 p2))

/-- A commit c is maximal within a candidate list when no other listed
commit is a proper descendant of c. -/
def isMaximalIn (g : Nat → List Nat) (l : List Nat) (c : Nat) : Bool :=
  l.all (fun d => d == c || !(decide (c ∈ ancList g d d)))

/-- Models git merge-base per the version-control contract of the spec:
a nearest common ancestor, i.e. a common ancestor of which no other
common ancestor is a proper descendant. -/
def mergeBase (g : Nat → List Nat) (p1 p2 : Nat) : Option Nat :=
  (commonAnc g p1 p2).find? (fun c => isMaximalIn g (commonAnc g p1 p2) c)

/-- Embeds the base-commit selection of features/extract.py main: when
rev-parse of the second parent succeeds the base is the merge-base of
the two parents, else the base is the sole parent; a commit without
parents makes the rev-parse of the first parent fail and the run helper
exit. -/
def computeBase (g : Nat → List Nat) (merge_sha : Nat) : Except String Nat :=
  match g merge_sha with
  | p1 :: p2 :: _ =>
    match mergeBase g p1 p2 with
    | some b => .ok b
    | none => .error "cmd failed: git merge-base"
  | [p1] => .ok p1
  | [] => .error "cmd failed: git rev-parse"

/-- Environment of one agent_change.py run: whether the working clone,
the base branch and the agent binary are present, whether the issue
fetch succeeds, and the exit status of the agent process on each
branch. -/
structure AgentEnv where
  workDirFound : Bool
  baseBranchExists : Bool
  agentFound : Bool
  issueFetchOk : Bool
  agentExit : String → Int

/-- Result of an agent_change.py run: the branches on which the agent
process was invoked, in order, and the script outcome (error c models
sys.exit with status c). -/
structure AgentRunResult where
  invocations : List String
  outcome : Except Nat Unit

/-- Embeds run_cursor_agent of agent_change.py for one branch: the
agent process runs once; a non-zero exit makes the script exit 1. -/
def run_cursor_agent (env : AgentEnv) (branch : String) : Except Nat Unit :=
  if env.agentExit branch != 0 then .error 1 else .ok ()

/-- Embeds agent_change.py main after argument parsing: preliminary
checks, then the plain-prompt invocation on the cursor branch followed
by the creative-prompt invocation on the cursor-creative branch, with
the early exit of run_cursor_agent propagated. -/
def agent_change_main (env : AgentEnv) (h : String) : AgentRunResult :=
  if env.workDirFound = false then ⟨[], .error 1⟩
  else if env.baseBranchExists = false then ⟨[], .error 1⟩
  else if env.agentFound = false then ⟨[], .error 1⟩
  else if env.issueFetchOk = false then ⟨[], .error 1⟩
  else
    let b1 := h ++ "-cursor"
    match run_cursor_agent env b1 with
    | .error c => ⟨[b1], .error c⟩
    | .ok _ =>
      let b2 := h ++ "-cursor-creative"
      match run_cursor_agent env b2 with
      | .error c => ⟨[b1, b2], .error c⟩
      | .ok _ => ⟨[b1, b2], .ok ()⟩

/-- The pair object inside the valid cache file used as C5 witness. -/
def pairObjC5 : Json := .obj [("issue_id", .num 7), ("pr_id", .num 9), ("self_pair", .bool false)]

/-- The refs object inside the valid cache file used as C5 witness. -/
def refsObjC5 : Json :=
  .obj [("issue_ids", .arr [.num 7]), ("pr_ids", .arr [.num 9]), ("ghsa_ids", .arr [])]

/-- A cache file that passes load_cache_if_valid: non-empty pairs list
plus a truthy refs object with an issue_ids list. -/
def validCacheJsonC5 : Json := .obj [("refs", refsObjC5), ("pairs", .arr [pairObjC5])]

/-- Property of a completely assembled dataset row: both identifiers
present and both snapshot hashes non-empty. -/
def completeRow (row : DatasetRow) : Prop :=
  row.issue_id.isSome = true ∧ row.pr_id.isSome = true ∧
    row.base_hash.isEmpty = false ∧ row.human_hash.isEmpty = false

/-- An on-disk extract cache entry for pair (1, 2), used against C1. -/
def cacheEntryC1 : CacheEntry :=
  ⟨some 1, some 2, some "aaaabbbbcc", none, some "ddddeeeeff", none⟩

/-- An extractor oracle that always succeeds, used against C1. -/
def rexC1 : Int → Int → ExtractOutcome :=
  fun _ _ => .success (some "aaaabbbbcc") (some "ddddeeeeff") none

/-- The pairs list of the C1 scenario: exactly the cached pair. -/
def pairsC1 : List PairRec := [⟨some 1, some 2⟩]

/-- An extractor oracle that always succeeds, used against C2. -/
def rexC2 : Int → Int → ExtractOutcome :=
  fun _ _ => .success (some "1111222233") (some "4444555566") none

/-- A two-pair batch, used against C2. -/
def pairsC2 : List PairRec := [⟨some 1, some 2⟩, ⟨some 3, some 4⟩]

/-- An extractor oracle that always fails, used against C9. -/
def rexFailC9 : Int → Int → ExtractOutcome :=
  fun _ _ => .failure "extract failed (no detail)"

/-- A build environment with a present clone and constant subprocess
results, used in the C9 scenario. -/
def envC9 : BuildEnv := ⟨true, fun _ _ => "", fun _ => "", fun _ => ""⟩

/-- The single-pair batch of the C9 scenario. -/
def pairsC9 : List PairRec := [⟨some 1, some 2⟩]

/-- An extractor oracle that always succeeds, used in the C9 witness. -/
def rexOkW9 : Int → Int → ExtractOutcome :=
  fun _ _ => .success (some "abcdef12ab") (some "fedcba98fe") none

/-- The pairs list of the C9 witness. -/
def pairsW9 : List PairRec := [⟨some 5, some 6⟩]

/-- A complete extract cache entry, used in the C9 witness. -/
def entriesW9 : List CacheEntry :=
  [⟨some 1, some 2, some "abcdef12ab", some "fedcba98fe", none, none⟩]

/-- Build environment of the C10 witness scenario. -/
def envC10 : BuildEnv :=
  ⟨true, fun _ _ => "diff-output", fun _ => "issue-text", fun _ => "pr-text"⟩

/-- The extract cache of the C10 witness scenario. -/
def entriesC10 : List CacheEntry :=
  [⟨some 5, some 6, some "abc123", some "def456", none, none⟩]

/-- The single row the build sub-command writes in the C10 witness
scenario. -/
def rowC10 : DatasetRow :=
  ⟨projectField, "issue-text", some 5, "pr-text", some 6, "abc123", "def456",
    "diff-output", "diff-output", "diff-output"⟩

/-- Extractor oracle of the C10 witness scenario. -/
def rexC10 : Int → Int → ExtractOutcome :=
  fun _ _ => .success (some "abc123") (some "def456") none

/-- Pairs list of the C10 witness scenario. -/
def pairsC10 : List PairRec := [⟨some 5, some 6⟩]

/-- Agent environment of the C4 scenario: everything is in place, but
the agent process exits non-zero on the cursor branch and would exit
zero on the cursor-creative branch. -/
def envC4 : AgentEnv :=
  ⟨true, true, true, true, fun b => if b = "deadbeef-cursor" then 1 else 0⟩

/-- Agent environment of the C4 witness: every invocation succeeds. -/
def envC4ok : AgentEnv := ⟨true, true, true, true, fun _ => 0⟩

/-- The ref store produced by a first extractor run on an empty clone
in the C3 scenario. -/
def storeC3 : List (String × String) :=
  [("abcd1234-base", "abcd1234ffff"), ("abcd1234-human", "9999aaaabbbb")]

/-- The commit graph of the C6 witness: 0 is the root, 1 and 2 are two
children of 0, 3 is a merge of 1 and 2, and 4 has the single parent 1. -/
def gW : Nat → List Nat := fun n =>
  if n = 1 then [0] else if n = 2 then [0] else if n = 3 then [1, 2]
  else if n = 4 then [1] else []

theorem mem_promoteSelfPairs (s : Finset (Int × Int)) (q : Int × Int) :
    q ∈ promoteSelfPairs s ↔
      (q ∈ s ∧ q.1 ≠ q.2) ∨
      (q ∈ s ∧ q.1 = q.2 ∧ ∀ r ∈ s, r.1 ≠ r.2 → r.2 ≠ q.2) := by
  unfold promoteSelfPairs
  simp only [Finset.mem_union, Finset.mem_filter, Finset.mem_image]
  constructor
  · rintro (⟨hq, hne⟩ | ⟨hq, heq, hnr⟩)
    · exact Or.inl ⟨hq, hne⟩
    · refine Or.inr ⟨hq, heq, ?_⟩
      intro r hr hrne hr2
      exact hnr ⟨r, ⟨hr, hrne⟩, hr2⟩
  · rintro (⟨hq, hne⟩ | ⟨hq, heq, hall⟩)
    · exact Or.inl ⟨hq, hne⟩
    · refine Or.inr ⟨hq, heq, ?_⟩
      rintro ⟨r, ⟨hr, hrne⟩, hr2⟩
      exact hall r hr hrne hr2

theorem mem_finalPairs_dropImplausiblePairs (S : Finset (Int × Int)) (q : Int × Int)
    (h : q ∈ finalPairs S) : q ∈ dropImplausiblePairs S := by
  unfold finalPairs at h
  rcases (mem_promoteSelfPairs (dropImplausiblePairs S) q).mp h with ⟨hT, _⟩ | ⟨hT, _, _⟩ <;>
    exact hT

/-- C5 counterexample: the cache file of the scenario (pairs present
but no refs key) fails validation, so the resolver does not return
early from the cache: it proceeds to the remote evidence sources
instead of skipping all remote calls. -/
theorem c5_counterexample :
    resolve_main false (some c5CacheJson) = ResolveOutcome.fetchedRemote := rfl

/-- C5 (amended): without the refresh flag, the resolver uses the cache
and performs no remote calls exactly when the cache file validates,
which requires a non-empty pairs list and a truthy refs object holding
an issue_ids list; it then reports the cached pairs unchanged. -/
theorem c5_cache_use (refresh : Bool) (file : Option Json) (refs : Json)
    (pairs_list : List Json) (h1 : refresh = false)
    (h2 : load_cache_if_valid file = .ok (some (refs, pairs_list))) :
    resolve_main refresh file = ResolveOutcome.usedCache pairs_list := by
  subst h1
  simp [resolve_main, h2]

/-- Witness for c5_cache_use at a concrete validating cache file. -/
theorem c5_cache_use_witness :
    resolve_main false (some validCacheJsonC5) = ResolveOutcome.usedCache [pairObjC5] :=
  c5_cache_use false (some validCacheJsonC5) refsObjC5 [pairObjC5] rfl rfl

/-- C7: in the resolver final pair set, a real pair (i, p) with i
different from p excludes the self-pair (p, p). -/
theorem c7_real_supersedes_self (S : Finset (Int × Int)) (i p : Int)
    (hne : i ≠ p) (hmem : (i, p) ∈ finalPairs S) :
    (p, p) ∉ finalPairs S := by
  unfold finalPairs at hmem ⊢
  have hreal : (i, p) ∈ dropImplausiblePairs S ∧ i ≠ p := by
    rcases (mem_promoteSelfPairs (dropImplausiblePairs S) (i, p)).mp hmem with h | h
    · exact ⟨h.1, h.2⟩
    · exact absurd h.2.1 hne
  intro hcontra
  rcases (mem_promoteSelfPairs (dropImplausiblePairs S) (p, p)).mp hcontra with h | h
  · exact h.2 rfl
  · exact h.2.2 (i, p) hreal.1 hreal.2 rfl

/-- Witness for c7_real_supersedes_self on a concrete pair set. -/
theorem c7_real_supersedes_self_witness :
    ((2 : Int), (2 : Int)) ∉ finalPairs {((1 : Int), (2 : Int)), ((2 : Int), (2 : Int))} :=
  c7_real_supersedes_self {(1, 2), (2, 2)} 1 2 (by decide) (by decide)

/-- C8: no real pair of the resolver final set has an issue id below 50
together with a pr id exceeding it by more than 500, and self-pairs are
exempt from this filter (a self-pair always survives the filter step). -/
theorem c8_implausible_filter (S : Finset (Int × Int)) (i p j : Int)
    (hmem : (i, p) ∈ finalPairs S) (hne : i ≠ p) (hself : (j, j) ∈ S) :
    ¬(i < 50 ∧ p - i > 500) ∧ (j, j) ∈ dropImplausiblePairs S := by
  constructor
  · have hT := mem_finalPairs_dropImplausiblePairs S (i, p) hmem
    unfold dropImplausiblePairs at hT
    rcases Finset.mem_filter.mp hT with ⟨_, hfilter⟩
    intro hbad
    exact hfilter ⟨hne, hbad.1, hbad.2⟩
  · unfold dropImplausiblePairs
    refine Finset.mem_filter.mpr ⟨hself, ?_⟩
    rintro ⟨hj, -, -⟩
    exact hj rfl

/-- Witness for c8_implausible_filter on a concrete pair set. -/
theorem c8_implausible_filter_witness :
    ¬((10 : Int) < 50 ∧ (20 : Int) - 10 > 500) ∧
      ((3 : Int), (3 : Int)) ∈ dropImplausiblePairs {((10 : Int), (20 : Int)), ((3 : Int), (3 : Int))} :=
  c8_implausible_filter {(10, 20), (3, 3)} 10 20 3 (by decide) (by decide) (by decide)

theorem processPair_durable (rex : Int → Int → ExtractOutcome)
    (st : ExtractRunState) (p : PairRec) :
    (processPair rex st p).durable = st.durable := by
  rcases p with ⟨i?, pr?⟩
  cases i? with
  | none => cases pr? <;> rfl
  | some i =>
    cases pr? with
    | none => rfl
    | some pr =>
      cases h : rex i pr <;> simp [processPair, h]

theorem extractLoop_durable (rex : Int → Int → ExtractOutcome)
    (pairs : List PairRec) (st : ExtractRunState) :
    (extractLoop rex pairs st).durable = st.durable := by
  induction pairs generalizing st with
  | nil => rfl
  | cons p rest ih =>
    show (extractLoop rex rest (processPair rex st p)).durable = st.durable
    rw [ih, processPair_durable]

theorem extractLoop_calls (rex : Int → Int → ExtractOutcome)
    (pairs : List PairRec) (st : ExtractRunState) :
    (extractLoop rex pairs st).calls = st.calls ++ wellFormedIds pairs := by
  induction pairs generalizing st with
  | nil => simp [extractLoop, wellFormedIds]
  | cons p rest ih =>
    show (extractLoop rex rest (processPair rex st p)).calls = _
    rw [ih]
    rcases p with ⟨i?, pr?⟩
    cases i? with
    | none => simp [processPair, wellFormedIds]
    | some i =>
      cases pr? with
      | none => simp [processPair, wellFormedIds]
      | some pr =>
        cases h : rex i pr <;> simp [processPair, wellFormedIds, h]

theorem processPair_entries_sound (rex : Int → Int → ExtractOutcome)
    (st : ExtractRunState) (p : PairRec) (P : CacheEntry → Prop)
    (hP : ∀ i pr bh mh br, P ⟨some i, some pr, bh, mh, none, br⟩)
    (hst : ∀ e ∈ st.extract_entries, P e) :
    ∀ e ∈ (processPair rex st p).extract_entries, P e := by
  rcases p with ⟨i?, pr?⟩
  cases i? with
  | none => cases pr? <;> exact hst
  | some i =>
    cases pr? with
    | none => exact hst
    | some pr =>
      cases h : rex i pr with
      | failure err =>
        intro e he
        simp only [processPair, h] at he
        exact hst e he
      | success bh mh br =>
        intro e he
        simp only [processPair, h] at he
        rcases List.mem_append.mp he with he | he
        · exact hst e he
        · rcases List.mem_singleton.mp he with rfl
          exact hP i pr bh mh br

theorem extractLoop_entries_sound (rex : Int → Int → ExtractOutcome)
    (pairs : List PairRec) (st : ExtractRunState) (P : CacheEntry → Prop)
    (hP : ∀ i pr bh mh br, P ⟨some i, some pr, bh, mh, none, br⟩)
    (hst : ∀ e ∈ st.extract_entries, P e) :
    ∀ e ∈ (extractLoop rex pairs st).extract_entries, P e := by
  induction pairs generalizing st with
  | nil => exact hst
  | cons p rest ih =>
    exact ih (processPair rex st p) (processPair_entries_sound rex st p P hP hst)

/-- C1 counterexample: the pairs list holds the single pair (1, 2) and
the on-disk extract cache already holds an entry for (1, 2), yet the
extract sub-command still performs a run_extract invocation for (1, 2):
processing an already-cached pair is not skipped. -/
theorem c1_counterexample :
    (get_extract_entry (some [cacheEntryC1]) 1 2).isSome = true ∧
    (extractCmd rexC1 pairsC1 (some [cacheEntryC1])).1.calls = [(1, 2)] :=
  ⟨rfl, rfl⟩

/-- C1 (amended): the extract and all sub-commands do not consult the
extract cache at all. The extractor is invoked for exactly the pairs
whose identifiers are both present, independently of the on-disk cache
content, and the cache is then overwritten with only this run's
entries. -/
theorem c1_no_resume (rex : Int → Int → ExtractOutcome) (env : BuildEnv)
    (pairs : List PairRec) (disk disk2 : Option (List CacheEntry)) :
    (extractCmd rex pairs disk).1.calls = wellFormedIds pairs ∧
    (extractCmd rex pairs disk).1.calls = (extractCmd rex pairs disk2).1.calls ∧
    (allCmd rex env pairs disk).1.calls = wellFormedIds pairs ∧
    (extractCmd rex pairs disk).1.durable =
      some (extractLoop rex pairs (initialExtractState disk)).extract_entries := by
  have hc : ∀ d : Option (List CacheEntry),
      (extractLoop rex pairs (initialExtractState d)).calls = wellFormedIds pairs := by
    intro d
    rw [extractLoop_calls]
    rfl
  exact ⟨hc disk, by rw [show (extractCmd rex pairs disk).1.calls =
      (extractLoop rex pairs (initialExtractState disk)).calls from rfl, hc disk,
      show (extractCmd rex pairs disk2).1.calls =
      (extractLoop rex pairs (initialExtractState disk2)).calls from rfl, hc disk2],
    hc disk, rfl⟩

/-- C2 counterexample: a two-pair batch starting from an empty on-disk
cache; after the first pair is processed successfully (one entry, no
failure), the durable cache is still the empty pre-run content, so the
successfully processed pair is not yet persisted. -/
theorem c2_counterexample :
    (extractLoop rexC2 (pairsC2.take 1) (initialExtractState (some []))).extract_entries.length = 1 ∧
    (extractLoop rexC2 (pairsC2.take 1) (initialExtractState (some []))).failed = [] ∧
    (extractLoop rexC2 (pairsC2.take 1) (initialExtractState (some []))).durable = some [] :=
  ⟨rfl, rfl, rfl⟩

/-- C2 (amended): the extract cache is persisted exactly once, after
the whole loop. After any prefix of the batch the durable cache still
holds the pre-run content, so a crash mid-run loses every pair of the
run, and the single save at the end stores the run's entries. -/
theorem c2_save_once (rex : Int → Int → ExtractOutcome) (pairs : List PairRec)
    (disk : Option (List CacheEntry)) (k : Nat) :
    (extractLoop rex (pairs.take k) (initialExtractState disk)).durable = disk ∧
    (extractCmd rex pairs disk).1.durable =
      some (extractLoop rex pairs (initialExtractState disk)).extract_entries := by
  exact ⟨by rw [extractLoop_durable]; rfl, rfl⟩

/-- C9 counterexample: under the all sub-command a batch with one pair
whose extraction fails records one failure yet exits with status 0, so
the exit status is not non-zero when a pair failed. -/
theorem c9_counterexample :
    (allCmd rexFailC9 envC9 pairsC9 (some [])).1.failed.length = 1 ∧
    (allCmd rexFailC9 envC9 pairsC9 (some [])).2.2 = 0 :=
  ⟨rfl, rfl⟩

/-- C9 (amended): per-pair failures never abort a batch and are
collected; the extract sub-command exits 0 exactly when no pair failed,
the build sub-command (given a non-empty extract cache) exits 0 exactly
when no entry failed, but the all sub-command always exits 0, reporting
its failures only in the printed summary. -/
theorem c9_exit_status (rex : Int → Int → ExtractOutcome) (env : BuildEnv)
    (pairs : List PairRec) (disk : Option (List CacheEntry))
    (entries : List CacheEntry) (hne : entries ≠ []) :
    ((extractCmd rex pairs disk).2 = 0 ↔
      (extractLoop rex pairs (initialExtractState disk)).failed = []) ∧
    ((buildCmd env (some entries)).2.2 = 0 ↔
      (entries.foldl (buildStep env) ([], [])).2 = []) ∧
    (allCmd rex env pairs disk).2.2 = 0 := by
  refine ⟨?_, ?_, rfl⟩
  · show (if (extractLoop rex pairs (initialExtractState disk)).failed.isEmpty
        then 0 else 1) = 0 ↔ _
    by_cases h : (extractLoop rex pairs (initialExtractState disk)).failed = [] <;>
      simp [h]
  · show (if entries.isEmpty then ([], [], 1)
        else
          let res := entries.foldl (buildStep env) ([], [])
          (res.1, res.2, if res.2.isEmpty then 0 else 1)).2.2 = 0 ↔ _
    rw [if_neg (by simpa using hne)]
    by_cases h : (entries.foldl (buildStep env) ([], [])).2 = [] <;> simp [h]

/-- Witness for c9_exit_status on concrete inputs. -/
theorem c9_exit_status_witness :
    ((extractCmd rexOkW9 pairsW9 none).2 = 0 ↔
      (extractLoop rexOkW9 pairsW9 (initialExtractState none)).failed = []) ∧
    ((buildCmd envC9 (some entriesW9)).2.2 = 0 ↔
      (entriesW9.foldl (buildStep envC9) ([], [])).2 = []) ∧
    (allCmd rexOkW9 envC9 pairsW9 none).2.2 = 0 :=
  c9_exit_status rexOkW9 envC9 pairsW9 none entriesW9 (by simp [entriesW9])

theorem build_one_row_fields (env : BuildEnv) (i? p? : Option Int)
    (bh hh : Option String) (row : DatasetRow)
    (h : build_one_row env i? p? bh hh = .ok row) :
    row.issue_id = i? ∧ row.pr_id = p? ∧
      row.base_hash.isEmpty = false ∧ row.human_hash.isEmpty = false := by
  unfold build_one_row at h
  split at h
  · exact absurd h (by simp)
  · split at h
    · split at h
      · exact absurd h (by simp)
      · rename_i hbe
        simp only [Except.ok.injEq] at h
        subst h
        simp only [Bool.or_eq_true, not_or, Bool.not_eq_true] at hbe
        exact ⟨rfl, rfl, hbe.1, hbe.2⟩
    · exact absurd h (by simp)

theorem foldl_buildStep_failed_mono (env : BuildEnv) (entries : List CacheEntry)
    (acc : List DatasetRow × List FailRec) (x : FailRec) (hx : x ∈ acc.2) :
    x ∈ (entries.foldl (buildStep env) acc).2 := by
  induction entries generalizing acc with
  | nil => exact hx
  | cons e rest ih =>
    refine ih (buildStep env acc e) ?_
    unfold buildStep
    by_cases hc : incompleteEntry e = true
    · simp only [if_pos hc]
      exact List.mem_append_left _ hx
    · rw [if_neg hc]
      cases hb : build_one_row env e.issue_id e.pr_id e.base_hash
          (pyOrStr e.merge_hash e.human_hash) with
      | error msg => exact List.mem_append_left _ hx
      | ok row => exact hx

theorem foldl_buildStep_failed_complete (env : BuildEnv) (entries : List CacheEntry)
    (acc : List DatasetRow × List FailRec) :
    ∀ e ∈ entries, incompleteEntry e = true →
      (e.issue_id, e.pr_id, "incomplete cache entry") ∈ (entries.foldl (buildStep env) acc).2 := by
  induction entries generalizing acc with
  | nil => intro e he; cases he
  | cons e0 rest ih =>
    intro e he hinc
    rcases List.mem_cons.mp he with rfl | he
    · refine foldl_buildStep_failed_mono env rest (buildStep env acc e) _ ?_
      unfold buildStep
      rw [if_pos hinc]
      exact List.mem_append_right _ (List.mem_singleton.mpr rfl)
    · exact ih (buildStep env acc e0) e he hinc

theorem foldl_buildStep_rows_sound (env : BuildEnv) (entries : List CacheEntry)
    (acc : List DatasetRow × List FailRec)
    (hacc : ∀ row ∈ acc.1, completeRow row) :
    ∀ row ∈ (entries.foldl (buildStep env) acc).1, completeRow row := by
  induction entries generalizing acc with
  | nil => exact hacc
  | cons e rest ih =>
    refine ih (buildStep env acc e) ?_
    intro row hrow
    unfold buildStep at hrow
    by_cases hc : incompleteEntry e = true
    · rw [if_pos hc] at hrow
      exact hacc row hrow
    · rw [if_neg hc] at hrow
      cases hb : build_one_row env e.issue_id e.pr_id e.base_hash
          (pyOrStr e.merge_hash e.human_hash) with
      | error msg =>
        rw [hb] at hrow
        exact hacc row hrow
      | ok row2 =>
        rw [hb] at hrow
        rcases List.mem_append.mp hrow with hrow | hrow
        · exact hacc row hrow
        · rcases List.mem_singleton.mp hrow with rfl
          obtain ⟨h1, h2, h3, h4⟩ := build_one_row_fields env _ _ _ _ row hb
          simp only [incompleteEntry, Bool.or_eq_true, not_or, Bool.not_eq_true] at hc
          refine ⟨?_, ?_, h3, h4⟩
          · rw [h1]
            cases hi : e.issue_id with
            | none => rw [hi] at hc; simp at hc
            | some v => rfl
          · rw [h2]
            cases hp : e.pr_id with
            | none => rw [hp] at hc; simp at hc
            | some v => rfl

theorem foldl_allBuildStep_rows_sound (env : BuildEnv) (entries : List CacheEntry)
    (acc : List DatasetRow × List FailRec)
    (hids : ∀ e ∈ entries, e.issue_id.isSome = true ∧ e.pr_id.isSome = true)
    (hacc : ∀ row ∈ acc.1, completeRow row) :
    ∀ row ∈ (entries.foldl (allBuildStep env) acc).1, completeRow row := by
  induction entries generalizing acc with
  | nil => exact hacc
  | cons e rest ih =>
    refine ih (allBuildStep env acc e) (fun e' he' => hids e' (List.mem_cons_of_mem _ he')) ?_
    intro row hrow
    unfold allBuildStep at hrow
    by_cases hc : (!truthyStr e.base_hash || !truthyStr e.merge_hash) = true
    · rw [if_pos hc] at hrow
      exact hacc row hrow
    · rw [if_neg hc] at hrow
      cases hb : build_one_row env e.issue_id e.pr_id e.base_hash e.merge_hash with
      | error msg =>
        rw [hb] at hrow
        exact hacc row hrow
      | ok row2 =>
        rw [hb] at hrow
        rcases List.mem_append.mp hrow with hrow | hrow
        · exact hacc row hrow
        · rcases List.mem_singleton.mp hrow with rfl
          obtain ⟨h1, h2, h3, h4⟩ := build_one_row_fields env _ _ _ _ row hb
          obtain ⟨hi, hp⟩ := hids e (List.mem_cons_self _ _)
          exact ⟨by rw [h1]; exact hi, by rw [h2]; exact hp, h3, h4⟩

/-- C10: every row the build sub-command writes has both identifiers
present and non-empty base and human hashes; a cache entry failing the
completeness check is skipped and recorded in the failure list with the
reason incomplete cache entry; rows are only ever emitted whole (a row
value exists only when build_one_row returned a full record); and every
row the all sub-command writes satisfies the same completeness
property. -/
theorem c10_output_invariant (env : BuildEnv) (entries : List CacheEntry)
    (rex : Int → Int → ExtractOutcome) (pairs : List PairRec)
    (disk : Option (List CacheEntry)) :
    (∀ row ∈ (buildCmd env (some entries)).1, completeRow row) ∧
    (∀ e ∈ entries, incompleteEntry e = true →
      (e.issue_id, e.pr_id, "incomplete cache entry") ∈ (buildCmd env (some entries)).2.1) ∧
    (∀ row ∈ (allCmd rex env pairs disk).2.1.1, completeRow row) := by
  refine ⟨?_, ?_, ?_⟩
  · intro row hrow
    simp only [buildCmd] at hrow
    by_cases he : entries.isEmpty = true
    · rw [if_pos he] at hrow
      cases hrow
    · rw [if_neg he] at hrow
      exact foldl_buildStep_rows_sound env entries ([], []) (by intro r hr; cases hr) row hrow
  · intro e he hinc
    simp only [buildCmd]
    rw [if_neg (by simp only [List.isEmpty_iff]; intro hx; subst hx; cases he)]
    exact foldl_buildStep_failed_complete env entries ([], []) e he hinc
  · intro row hrow
    have hids : ∀ e ∈ (extractLoop rex pairs (initialExtractState disk)).extract_entries,
        e.issue_id.isSome = true ∧ e.pr_id.isSome = true := by
      refine extractLoop_entries_sound rex pairs (initialExtractState disk)
        (fun e => e.issue_id.isSome = true ∧ e.pr_id.isSome = true) ?_ ?_
      · intro i pr bh mh br
        exact ⟨rfl, rfl⟩
      · intro e he
        cases he
    exact foldl_allBuildStep_rows_sound env _ ([], []) hids (by intro r hr; cases hr) row hrow

/-- Witness for c10_output_invariant: the concrete single-entry cache
yields exactly rowC10, which is complete. -/
theorem c10_output_invariant_witness : completeRow rowC10 :=
  (c10_output_invariant envC10 entriesC10 rexC10 pairsC10 none).1 rowC10 (by decide)

/-- C4 counterexample: with the clone, the base branch, the agent
binary and the issue fetch all in order, a non-zero agent exit on the
cursor branch terminates agent_change.py with status 1 after a single
invocation: the creative invocation, which would have succeeded, is
never attempted. -/
theorem c4_counterexample :
    (agent_change_main envC4 "deadbeef").invocations = ["deadbeef-cursor"] ∧
    (agent_change_main envC4 "deadbeef").outcome = .error 1 ∧
    envC4.agentExit "deadbeef-cursor-creative" = 0 :=
  ⟨rfl, rfl, rfl⟩

/-- C4 (amended): two agent invocations occur per pair only when the
first succeeds; a non-zero exit of the first invocation terminates the
script with status 1 before the creative invocation is attempted. -/
theorem c4_first_failure_blocks_second (env : AgentEnv) (h : String)
    (hw : env.workDirFound = true) (hb : env.baseBranchExists = true)
    (ha : env.agentFound = true) (hi : env.issueFetchOk = true) :
    (env.agentExit (h ++ "-cursor") = 0 →
      (agent_change_main env h).invocations = [h ++ "-cursor", h ++ "-cursor-creative"]) ∧
    (env.agentExit (h ++ "-cursor") ≠ 0 →
      (agent_change_main env h).invocations = [h ++ "-cursor"] ∧
      (agent_change_main env h).outcome = .error 1) := by
  constructor
  · intro hex
    simp only [agent_change_main, hw, hb, ha, hi]
    norm_num
    simp only [run_cursor_agent, hex]
    norm_num
    by_cases h2 : env.agentExit (h ++ "-cursor-creative") = 0 <;>
      simp [run_cursor_agent, h2]
  · intro hex
    have hbne : (env.agentExit (h ++ "-cursor") != 0) = true := bne_iff_ne.mpr hex
    simp only [agent_change_main, hw, hb, ha, hi]
    norm_num
    simp only [run_cursor_agent, hbne]
    norm_num

/-- Witness for c4_first_failure_blocks_second in an environment where
every invocation succeeds. -/
theorem c4_first_failure_blocks_second_witness :
    (envC4ok.agentExit ("cafe0000" ++ "-cursor") = 0 →
      (agent_change_main envC4ok "cafe0000").invocations =
        ["cafe0000" ++ "-cursor", "cafe0000" ++ "-cursor-creative"]) ∧
    (envC4ok.agentExit ("cafe0000" ++ "-cursor") ≠ 0 →
      (agent_change_main envC4ok "cafe0000").invocations = ["cafe0000" ++ "-cursor"] ∧
      (agent_change_main envC4ok "cafe0000").outcome = .error 1) :=
  c4_first_failure_blocks_second envC4ok "cafe0000" rfl rfl rfl rfl

theorem lookup_append_of_none (l1 l2 : List (String × String)) (k : String)
    (h : l1.lookup k = none) : (l1 ++ l2).lookup k = l2.lookup k := by
  induction l1 with
  | nil => rfl
  | cons a t ih =>
    obtain ⟨ak, av⟩ := a
    rw [List.lookup_cons] at h
    rw [List.cons_append, List.lookup_cons]
    cases hk : k == ak with
    | true =>
      rw [hk] at h
      exact Option.noConfusion h
    | false =>
      rw [hk] at h
      exact ih h

theorem lookup_none_filter_eq_nil (l : List (String × String)) (k : String)
    (h : l.lookup k = none) : l.filter (fun q => q.1 == k) = [] := by
  induction l with
  | nil => rfl
  | cons a t ih =>
    obtain ⟨ak, av⟩ := a
    rw [List.lookup_cons] at h
    cases hk : k == ak with
    | true =>
      rw [hk] at h
      exact Option.noConfusion h
    | false =>
      rw [hk] at h
      have hak : (ak == k) = false :=
        beq_eq_false_iff_ne.mpr (fun hx => beq_eq_false_iff_ne.mp hk hx.symm)
      rw [List.filter_cons]
      simp only [hak, Bool.false_eq_true, if_false]
      exact ih h

/-- C3 counterexample: a first extractor run on an empty ref store
succeeds and creates the base and human branches; running the same
branch creation a second time at the same commit identifiers raises an
error (the run helper exits) instead of being a no-op. -/
theorem c3_counterexample :
    createSnapshotBranches [] "abcd1234ffff" "9999aaaabbbb" = .ok storeC3 ∧
    createSnapshotBranches storeC3 "abcd1234ffff" "9999aaaabbbb" =
      .error "fatal: a branch named abcd1234-base already exists" :=
  ⟨rfl, rfl⟩

/-- C3 (amended): snapshot creation is not idempotent. A first run on a
store without the two branch names creates them, leaving exactly one
ref named h-base pointing at the base commit; a second run at the same
commits fails with an error, because git branch without -f refuses an
existing name, and leaves the store unchanged with still exactly one
such ref at that commit. -/
theorem c3_second_creation_fails (store : List (String × String))
    (base_sha merge_sha : String)
    (h1 : store.lookup (base_sha.take 8 ++ "-base") = none)
    (h2 : store.lookup (base_sha.take 8 ++ "-human") = none)
    (hbm : base_sha.take 8 ++ "-base" ≠ base_sha.take 8 ++ "-human") :
    createSnapshotBranches store base_sha merge_sha =
      .ok (store ++ [(base_sha.take 8 ++ "-base", base_sha)] ++
        [(base_sha.take 8 ++ "-human", merge_sha)]) ∧
    createSnapshotBranches
        (store ++ [(base_sha.take 8 ++ "-base", base_sha)] ++
          [(base_sha.take 8 ++ "-human", merge_sha)]) base_sha merge_sha =
      .error ("fatal: a branch named " ++ (base_sha.take 8 ++ "-base") ++
        " already exists") ∧
    (store ++ [(base_sha.take 8 ++ "-base", base_sha)] ++
        [(base_sha.take 8 ++ "-human", merge_sha)]).lookup
      (base_sha.take 8 ++ "-base") = some base_sha ∧
    ((store ++ [(base_sha.take 8 ++ "-base", base_sha)] ++
        [(base_sha.take 8 ++ "-human", merge_sha)]).filter
      (fun q => q.1 == base_sha.take 8 ++ "-base")).length = 1 := by
  have hlook1 : (store ++ [(base_sha.take 8 ++ "-base", base_sha)]).lookup
      (base_sha.take 8 ++ "-human") = none := by
    rw [lookup_append_of_none store _ _ h2, List.lookup_cons]
    rw [show ((base_sha.take 8 ++ "-human") == (base_sha.take 8 ++ "-base")) = false from
      beq_eq_false_iff_ne.mpr (fun hx => hbm hx.symm)]
    rfl
  have hlook2 : (store ++ [(base_sha.take 8 ++ "-base", base_sha)] ++
      [(base_sha.take 8 ++ "-human", merge_sha)]).lookup (base_sha.take 8 ++ "-base") =
      some base_sha := by
    rw [List.append_assoc, lookup_append_of_none store _ _ h1, List.cons_append,
      List.lookup_cons]
    rw [show ((base_sha.take 8 ++ "-base") == (base_sha.take 8 ++ "-base")) = true from
      beq_iff_eq.mpr rfl]
  refine ⟨?_, ?_, hlook2, ?_⟩
  · simp only [createSnapshotBranches, gitBranchCreate, h1, hlook1]
  · simp only [createSnapshotBranches, gitBranchCreate, hlook2]
  · rw [List.filter_append, List.filter_append]
    rw [lookup_none_filter_eq_nil store _ h1]
    have hb : ((base_sha.take 8 ++ "-base") == (base_sha.take 8 ++ "-base")) = true :=
      beq_iff_eq.mpr rfl
    have hh : ((base_sha.take 8 ++ "-human") == (base_sha.take 8 ++ "-base")) = false :=
      beq_eq_false_iff_ne.mpr (fun hx => hbm hx.symm)
    simp [List.filter_cons, hb, hh]

/-- Witness for c3_second_creation_fails on an empty initial store. -/
theorem c3_second_creation_fails_witness :
    createSnapshotBranches [] "abcd1234ffff" "9999aaaabbbb" =
      .ok ([] ++ [("abcd1234ffff".take 8 ++ "-base", "abcd1234ffff")] ++
        [("abcd1234ffff".take 8 ++ "-human", "9999aaaabbbb")]) ∧
    createSnapshotBranches
        ([] ++ [("abcd1234ffff".take 8 ++ "-base", "abcd1234ffff")] ++
          [("abcd1234ffff".take 8 ++ "-human", "9999aaaabbbb")]) "abcd1234ffff" "9999aaaabbbb" =
      .error ("fatal: a branch named " ++ ("abcd1234ffff".take 8 ++ "-base") ++
        " already exists") ∧
    ([] ++ [("abcd1234ffff".take 8 ++ "-base", "abcd1234ffff")] ++
        [("abcd1234ffff".take 8 ++ "-human", "9999aaaabbbb")]).lookup
      ("abcd1234ffff".take 8 ++ "-base") = some "abcd1234ffff" ∧
    ((([] ++ [("abcd1234ffff".take 8 ++ "-base", "abcd1234ffff")] ++
        [("abcd1234ffff".take 8 ++ "-human", "9999aaaabbbb")] : List (String × String))).filter
      (fun q => q.1 == "abcd1234ffff".take 8 ++ "-base")).length = 1 :=
  c3_second_creation_fails [] "abcd1234ffff" "9999aaaabbbb" rfl rfl (by decide)

theorem ancList_le (g : Nat → List Nat) (hg : ∀ n p, p ∈ g n → p < n) :
    ∀ fuel b a, a ∈ ancList g fuel b → a ≤ b := by
  intro fuel
  induction fuel with
  | zero =>
    intro b a ha
    simp only [ancList] at ha
    rcases List.mem_singleton.mp ha with rfl
    exact le_refl a
  | succ fuel ih =>
    intro b a ha
    simp only [ancList] at ha
    rcases List.mem_cons.mp ha with rfl | ha
    · exact le_refl a
    · rcases List.mem_flatMap.mp ha with ⟨p, hp, hap⟩
      exact le_trans (ih p a hap) (le_of_lt (hg b p hp))

theorem find?_eq_some_of_unique {α : Type} (l : List α) (p : α → Bool) (a : α)
    (ha : a ∈ l) (hpa : p a = true) (huniq : ∀ x ∈ l, p x = true → x = a) :
    l.find? p = some a := by
  induction l with
  | nil => cases ha
  | cons x t ih =>
    by_cases hx : p x = true
    · rw [List.find?_cons_of_pos t hx, huniq x (List.mem_cons_self x t) hx]
    · rw [List.find?_cons_of_neg t hx]
      rcases List.mem_cons.mp ha with rfl | ha2
      · exact absurd hpa hx
      · exact ih ha2 (fun y hy hpy => huniq y (List.mem_cons_of_mem x hy) hpy)

/-- C6: base-commit selection of the state extractor. For a merge
commit whose two parents have nearest common ancestor a (a common
ancestor of which every common ancestor is itself an ancestor), the
computed base is a; for a commit with a single parent p, the computed
base is p. The hypothesis on g states that parent commits precede their
children, which bounds the ancestor search. -/
theorem c6_base_commit_selection (g : Nat → List Nat)
    (hg : ∀ n p, p ∈ g n → p < n) (m2 p1 p2 a m1 p : Nat)
    (h2p : g m2 = [p1, p2])
    (ha1 : a ∈ ancList g p1 p1) (ha2 : a ∈ ancList g p2 p2)
    (hnca : ∀ d, d ∈ ancList g p1 p1 → d ∈ ancList g p2 p2 → d ∈ ancList g a a)
    (h1p : g m1 = [p]) :
    computeBase g m2 = .ok a ∧ computeBase g m1 = .ok p := by
  constructor
  · have haC : a ∈ commonAnc g p1 p2 := by
      simp only [commonAnc, List.mem_filter]
      exact ⟨ha1, by simpa using ha2⟩
    have hpassA : isMaximalIn g (commonAnc g p1 p2) a = true := by
      rw [isMaximalIn, List.all_eq_true]
      intro d hd
      simp only [commonAnc, List.mem_filter] at hd
      have hd1 : d ∈ ancList g p1 p1 := hd.1
      have hd2 : d ∈ ancList g p2 p2 := by simpa using hd.2
      have hda : d ∈ ancList g a a := hnca d hd1 hd2
      have hdlea : d ≤ a := ancList_le g hg a a d hda
      by_cases had : a ∈ ancList g d d
      · have halad : a ≤ d := ancList_le g hg d d a had
        have heq : d = a := le_antisymm hdlea halad
        subst heq
        simp
      · simp [had]
    have huniq : ∀ c ∈ commonAnc g p1 p2,
        isMaximalIn g (commonAnc g p1 p2) c = true → c = a := by
      intro c hc hmax
      simp only [commonAnc, List.mem_filter] at hc
      have hc1 : c ∈ ancList g p1 p1 := hc.1
      have hc2 : c ∈ ancList g p2 p2 := by simpa using hc.2
      have hca : c ∈ ancList g a a := hnca c hc1 hc2
      rw [isMaximalIn, List.all_eq_true] at hmax
      have hat := hmax a haC
      simp [hca] at hat
      exact hat.symm
    have hmb : mergeBase g p1 p2 = some a := by
      rw [mergeBase]
      exact find?_eq_some_of_unique _ _ a haC hpassA huniq
    simp only [computeBase, h2p, hmb]
  · simp only [computeBase, h1p]

/-- Witness for c6_base_commit_selection on the concrete graph gW:
commit 3 merges parents 1 and 2 with nearest common ancestor 0, and
commit 4 has single parent 1. -/
theorem c6_base_commit_selection_witness :
    computeBase gW 3 = .ok 0 ∧ computeBase gW 4 = .ok 1 :=
  c6_base_commit_selection gW
    (by
      intro n q hq
      unfold gW at hq
      split_ifs at hq with hc1 hc2 hc3 hc4 <;> simp_all <;> omega)
    3 1 2 0 4 1 rfl (by decide) (by decide)
    (by
      intro d hd1 hd2
      have e1 : ancList gW 1 1 = [1, 0] := rfl
      rw [e1] at hd1
      rcases List.mem_cons.mp hd1 with rfl | hd1
      · have e2 : ancList gW 2 2 = [2, 0] := rfl
        rw [e2] at hd2
        rcases List.mem_cons.mp hd2 with h | h
        · exact absurd h (by decide)
        · exact absurd (List.mem_singleton.mp h) (by decide)
      · rcases List.mem_singleton.mp hd1 with rfl
        decide)
    rfl
